import Mathlib

/-!
Formal model of the tsnet embedded-server connection-dispatch and
lifecycle-coordination subsystem (`tsnet/tsnet.go`).

The Go code is shallowly embedded: the listener registry (a Go map guarded
by `s.mu`) becomes an association list, the per-listener rendezvous channel
becomes a closed-flag plus an explicit pending delivery, `sync.Once` becomes
a latched `initDone`/`initErr` pair, and the non-reentrant `sync.Mutex` is
modelled explicitly where lock nesting matters (`Server.Close`).  Theorems
at the end of the file settle the specification claims against this model.
-/

deriving instance DecidableEq for Except

namespace Tsnet

/-- Key of one registered listener: the Go struct `listenKey` with fields
`network`, `host`, `port` (`tsnet.go`). -/
structure ListenKey where
  network : String
  host : String
  port : String
deriving DecidableEq

/-- One in-process listener: the Go struct `listener`.  The `id` field stands
for the Go pointer identity (`*listener`), which `listener.Close` compares
with `v == ln`; `key` and `addr` are the struct fields of the same name.
The rendezvous channel `conn` lives in the server state (`closedChans`). -/
structure Listener where
  id : Nat
  key : ListenKey
  addr : String
deriving DecidableEq

/-- An established inbound connection (`net.Conn`), abstract. -/
structure Conn where
  id : Nat
deriving DecidableEq

/-- Lookup in the registry map `s.listeners[key]`, modelled on an
association list. -/
def regLookup : List (ListenKey × Listener) → ListenKey → Option Listener
  | [], _ => none
  | e :: rest, k => if e.1 = k then some e.2 else regLookup rest k

/-- Removal from the registry map, `delete(s.listeners, key)`. -/
def regErase : List (ListenKey × Listener) → ListenKey → List (ListenKey × Listener)
  | [], _ => []
  | e :: rest, k => if e.1 = k then regErase rest k else e :: regErase rest k

theorem regLookup_erase_self (r : List (ListenKey × Listener)) (k : ListenKey) :
    regLookup (regErase r k) k = none := by
  induction r with
  | nil => rfl
  | cons e rest ih =>
    by_cases h : e.1 = k
    · simp [regErase, h, ih]
    · simp [regErase, regLookup, h, ih]

theorem regLookup_erase_ne (r : List (ListenKey × Listener)) (k k2 : ListenKey)
    (h : k2 ≠ k) : regLookup (regErase r k) k2 = regLookup r k2 := by
  induction r with
  | nil => rfl
  | cons e rest ih =>
    by_cases he : e.1 = k
    · have hne : e.1 ≠ k2 := fun hc => h (hc ▸ he)
      simp only [regErase, regLookup]
      rw [if_pos he, if_neg hne, ih]
    · simp only [regErase, regLookup]
      rw [if_neg he]
      by_cases he2 : e.1 = k2
      · simp [regLookup, he2]
      · simp [regLookup, he2, ih]

theorem regLookup_mem (r : List (ListenKey × Listener)) (k : ListenKey) (l : Listener)
    (h : regLookup r k = some l) : (k, l) ∈ r := by
  induction r with
  | nil => simp [regLookup] at h
  | cons e rest ih =>
    by_cases he : e.1 = k
    · simp [regLookup, he] at h
      obtain ⟨k1, l1⟩ := e
      simp only at he h
      subst he
      subst h
      exact List.mem_cons_self _ _
    · simp [regLookup, he] at h
      exact List.mem_cons_of_mem e (ih h)

theorem mem_regErase (r : List (ListenKey × Listener)) (k : ListenKey)
    (e : ListenKey × Listener) (h : e ∈ regErase r k) : e ∈ r ∧ e.1 ≠ k := by
  induction r with
  | nil => simp [regErase] at h
  | cons p rest ih =>
    by_cases hp : p.1 = k
    · simp [regErase, hp] at h
      have := ih h
      exact ⟨List.mem_cons_of_mem p this.1, this.2⟩
    · simp [regErase, hp] at h
      rcases h with h | h
      · exact ⟨by rw [h]; exact List.mem_cons_self p rest, by rw [h]; exact hp⟩
      · have := ih h
        exact ⟨List.mem_cons_of_mem p this.1, this.2⟩

theorem regErase_sublist (r : List (ListenKey × Listener)) (k : ListenKey) :
    (regErase r k).Sublist r := by
  induction r with
  | nil => simp [regErase]
  | cons e rest ih =>
    by_cases he : e.1 = k
    · simp only [regErase, he, if_pos]
      exact ih.cons e
    · simp only [regErase, he, if_neg, ite_false]
      exact ih.cons₂ e

theorem regLookup_none_not_key (r : List (ListenKey × Listener)) (k : ListenKey)
    (h : regLookup r k = none) : k ∉ r.map Prod.fst := by
  induction r with
  | nil => simp
  | cons e rest ih =>
    by_cases he : e.1 = k
    · simp [regLookup, he] at h
    · simp [regLookup, he] at h
      simp [ih h]
      intro hc
      exact he hc.symm

/-! ### Address parsing

Model of the Go standard-library function `net.SplitHostPort`, which
`Server.Listen` calls first on its `addr` argument.  The function splits
`"host:port"` (or `"[host]:port"`) at the last colon; every failure returns a
`net.AddrError` carrying a reason string.  The bracket-related reason strings
are abbreviated here (the Go originals quote the bracket character). -/

/-- Reason string of Go `net.SplitHostPort` when no colon is present. -/
def missingPortMsg : String := "missing port in address"

/-- Reason string of Go `net.SplitHostPort` for a colon inside an unbracketed
host or after a bracketed host. -/
def tooManyColonsMsg : String := "too many colons in address"

/-- Reason string of Go `net.SplitHostPort` for an unmatched opening bracket. -/
def missingBracketMsg : String := "missing right bracket in address"

/-- Reason string of Go `net.SplitHostPort` for a stray closing bracket. -/
def unexpectedBracketMsg : String := "unexpected right bracket in address"

/-- Index of the last occurrence of `c`, as in Go `last(hostPort, c)`. -/
def lastIndexOfChar : List Char → Char → Option Nat
  | [], _ => none
  | a :: rest, c =>
    match lastIndexOfChar rest c with
    | some i => some (i + 1)
    | none => if a = c then some 0 else none

/-- Index of the first occurrence of `c`, as in Go `byteIndex(s, c)`. -/
def indexOfChar : List Char → Char → Option Nat
  | [], _ => none
  | a :: rest, c => if a = c then some 0 else (indexOfChar rest c).map (· + 1)

/-- Containment test used for the bracket sanity checks of `SplitHostPort`. -/
def hasChar : List Char → Char → Bool
  | [], _ => false
  | a :: rest, c => a == c || hasChar rest c

/-- Bracketed branch of `net.SplitHostPort` (`hostPort[0] == '['`), given the
index `i` of the last colon. -/
def splitBracketed (s : List Char) (i : Nat) : Except String (String × String) :=
  match indexOfChar s ']' with
  | none => Except.error missingBracketMsg
  | some endi =>
    if endi + 1 = s.length then Except.error missingPortMsg
    else if endi + 1 = i then
      if hasChar (s.drop 1) '[' then Except.error missingBracketMsg
      else if hasChar (s.drop (endi + 1)) ']' then Except.error unexpectedBracketMsg
      else Except.ok (String.mk ((s.drop 1).take (endi - 1)), String.mk (s.drop (i + 1)))
    else if (s.drop (endi + 1)).head? = some ':' then Except.error tooManyColonsMsg
    else Except.error missingPortMsg

/-- Model of Go `net.SplitHostPort`: splits `hostPort` into host and port at
the last colon, validating brackets; on failure it returns the reason string
of the `net.AddrError`. -/
def splitHostPort (hostPort : String) : Except String (String × String) :=
  let s := hostPort.toList
  match lastIndexOfChar s ':' with
  | none => Except.error missingPortMsg
  | some i =>
    if s.head? = some '[' then splitBracketed s i
    else
      let host := s.take i
      if hasChar host ':' then Except.error tooManyColonsMsg
      else if hasChar s '[' then Except.error missingBracketMsg
      else if hasChar s ']' then Except.error unexpectedBracketMsg
      else Except.ok (String.mk host, String.mk (s.drop (i + 1)))

/-- Message of a Go `net.AddrError` with address `addr` and reason `why`. -/
def addrErrorString (addr why : String) : String :=
  if addr = "" then why else "address " ++ addr ++ ": " ++ why

/-! ### State-store policy (`Server.start`, `tsnet.go` lines 139-143)

The Go code reads:

  if s.Store != nil && !s.Ephemeral \x7b
      if _, ok := s.Store.(*mem.Store); !ok \x7b
          return fmt.Errorf("in-memory store is only supported for Ephemeral nodes")
      \x7d
  \x7d

so the error is returned exactly when a store is supplied, the server is not
ephemeral, and the type assertion to `*mem.Store` FAILS (`!ok`). -/

/-- Kind of a supplied `ipn.StateStore`: either the pure in-memory
`*mem.Store`, or any other (persistent) implementation. -/
inductive StoreKind where
  | memStore
  | otherStore
deriving DecidableEq

/-- Result of the Go type assertion `s.Store.(*mem.Store)` (its `ok` value). -/
def isMemStore : Option StoreKind → Bool
  | some StoreKind.memStore => true
  | _ => false

/-- The store-policy check at the top of `Server.start`: `none` means the
check passes, `some msg` means `start` returns the error `msg` (before the
link monitor, engine or netstack are constructed). -/
def storePolicyCheck (store : Option StoreKind) (ephemeral : Bool) : Option String :=
  if store.isSome && !ephemeral then
    if !isMemStore store then
      some "in-memory store is only supported for Ephemeral nodes"
    else none
  else none

/-! ### State-directory resolution and migration (`getTSNetDir`, `Server.start`)

`getTSNetDir` consults the filesystem through `os.Lstat` on the legacy path
`confDir/tslib-<prog>` and the new path `confDir/tsnet-<prog>`, and may call
`os.Rename`.  The filesystem is modelled by what those two `Lstat` calls
report; `os.Rename` onto an existing path follows POSIX semantics
(the destination is replaced). -/

/-- What `os.Lstat` reports for an existing path. -/
inductive FileKind where
  | dir
  | file
deriving DecidableEq

/-- The two filesystem entries `getTSNetDir` consults: `none` models
`os.IsNotExist`. -/
structure ConfFS where
  oldEntry : Option FileKind
  newEntry : Option FileKind
deriving DecidableEq

/-- The legacy state-directory path `filepath.Join(confDir, "tslib-"+prog)`. -/
def tslibDirName (confDir prog : String) : String := confDir ++ "/tslib-" ++ prog

/-- The new state-directory path `filepath.Join(confDir, "tsnet-"+prog)`. -/
def tsnetDirName (confDir prog : String) : String := confDir ++ "/tsnet-" ++ prog

/-- Outcome of `getTSNetDir`: the filesystem after the call, the directory
path returned, and whether an `os.Rename` was performed. -/
structure DirResult where
  fs : ConfFS
  path : String
  renamed : Bool
deriving DecidableEq

/-- Model of `getTSNetDir` (`tsnet.go` lines 328-361): returns the new-style
path, renaming a legacy `tslib-` directory to the `tsnet-` name only when the
legacy path exists as a directory and the new path does not already exist as
a directory. -/
def getTSNetDir (fs : ConfFS) (confDir prog : String) : Except String DirResult :=
  match fs.oldEntry with
  | none => Except.ok ⟨fs, tsnetDirName confDir prog, false⟩
  | some FileKind.file =>
    Except.error ("expected old tslib path " ++ tslibDirName confDir prog
      ++ " to be a directory")
  | some FileKind.dir =>
    match fs.newEntry with
    | some FileKind.dir => Except.ok ⟨fs, tsnetDirName confDir prog, false⟩
    | _ => Except.ok ⟨⟨none, some FileKind.dir⟩, tsnetDirName confDir prog, true⟩

/-- Model of `os.MkdirAll(rootPath, 0700)` on the resolved new-style path:
creates the directory if absent, succeeds if it already is a directory, and
fails if the path exists as a non-directory. -/
def mkdirAll (fs : ConfFS) : Except String ConfFS :=
  match fs.newEntry with
  | some FileKind.file => Except.error "mkdir: not a directory"
  | _ => Except.ok ⟨fs.oldEntry, some FileKind.dir⟩

/-- The automatic state-directory branch of `Server.start` (`tsnet.go` lines
147-159, taken when `s.Dir` is empty): resolve via `getTSNetDir`, then
`os.MkdirAll` the result. -/
def resolveAutoStateDir (fs : ConfFS) (confDir prog : String) :
    Except String (ConfFS × String × Bool) :=
  match getTSNetDir fs confDir prog with
  | Except.error e => Except.error e
  | Except.ok r =>
    match mkdirAll r.fs with
    | Except.error e => Except.error e
    | Except.ok fs2 => Except.ok (fs2, r.path, r.renamed)

/-! ### Server state and lifecycle

`ServerState` collects the mutable fields of the Go `Server` that the claims
are about: the listener registry `s.listeners`, the set of listener
rendezvous channels that have been closed (`close(ln.conn)`), a counter
supplying fresh listener identities (Go pointer allocation), the
`sync.Once`-latched initialization result (`initOnce`/`initErr` — `initCount`
counts how many times `doInit` actually ran), and whether
`s.shutdownCancel()` has been called. -/

structure ServerState where
  registry : List (ListenKey × Listener)
  closedChans : List Nat
  nextId : Nat
  initDone : Bool
  initErr : Option String
  initCount : Nat
  shutdownDone : Bool
deriving DecidableEq

/-- Model of `Server.Start` (`tsnet.go` lines 94-97) together with `doInit`:
`s.initOnce.Do(s.doInit)` runs `doInit` only on the first call; `doInit`
runs `s.start()` — whose outcome in the current environment is the parameter
`u` (`none` for success, `some msg` for failure) — and latches
`fmt.Errorf("tsnet: %w", err)` into `s.initErr`.  Every call returns
`s.initErr`. -/
def startCall (st : ServerState) (u : Option String) : ServerState × Option String :=
  if st.initDone then (st, st.initErr)
  else
    let e := u.map (fun m => "tsnet: " ++ m)
    ({ st with initDone := true, initErr := e, initCount := st.initCount + 1 }, e)

/-- The states and per-call results of `n` successive `Start` calls in a
fixed environment `u`. -/
def startResults (st : ServerState) (u : Option String) : Nat → ServerState × List (Option String)
  | 0 => (st, [])
  | Nat.succ n =>
    let p := startResults st u n
    let q := startCall p.1 u
    (q.1, p.2 ++ [q.2])

/-- Errors returned by `Server.Listen`. -/
inductive ListenError where
  | addressParse (msg : String)
  | startup (msg : String)
  | duplicateListener (msg : String)
deriving DecidableEq

/-- Model of `Server.Listen` (`tsnet.go` lines 365-394): split the address,
trigger `Start`, reject a duplicate key, otherwise register a fresh
listener whose rendezvous channel is open. -/
def serverListen (st : ServerState) (network addr : String) (u : Option String) :
    ServerState × Except ListenError Listener :=
  match splitHostPort addr with
  | Except.error e =>
    (st, Except.error (ListenError.addressParse ("tsnet: " ++ addrErrorString addr e)))
  | Except.ok (host, port) =>
    let p := startCall st u
    match p.2 with
    | some e => (p.1, Except.error (ListenError.startup e))
    | none =>
      let key : ListenKey := ⟨network, host, port⟩
      let ln : Listener := ⟨p.1.nextId, key, addr⟩
      match regLookup p.1.registry key with
      | some _ =>
        (p.1, Except.error (ListenError.duplicateListener
          ("tsnet: listener already open for " ++ network ++ ", " ++ addr)))
      | none =>
        ({ p.1 with registry := (key, ln) :: p.1.registry, nextId := p.1.nextId + 1 },
          Except.ok ln)

/-- Body of `listener.Close` once `ln.s.mu` is held (`tsnet.go` lines
419-425): if `ln` is still the listener stored under its key, delete the key
and close the rendezvous channel; otherwise do nothing. -/
def listenerCloseLocked (st : ServerState) (ln : Listener) : ServerState :=
  match regLookup st.registry ln.key with
  | some v =>
    if v = ln then
      { st with registry := regErase st.registry ln.key,
                closedChans := ln.id :: st.closedChans }
    else st
  | none => st

/-- Model of `listener.Close` called by the application with `s.mu` free:
acquires and releases the mutex around `listenerCloseLocked`, and always
returns `nil` (the second component). -/
def listenerClose (st : ServerState) (ln : Listener) : ServerState × Option String :=
  (listenerCloseLocked st ln, none)

/-- Locking a Go `sync.Mutex`: the mutex is not reentrant, so locking while
it is already held blocks the goroutine forever (`none`). -/
def muLock : Bool → Option Bool
  | true => none
  | false => some true

/-- Outcome of `Server.Close`: either it completes, yielding the final state
and the returned error, or it never returns. -/
inductive CloseOutcome where
  | completes (st : ServerState) (err : Option String)
  | deadlock
deriving DecidableEq

/-- The loop `for _, ln := range s.listeners ... ln.Close()` inside
`Server.Close`, executed while `Server.Close` holds `s.mu` (`held`):
each `ln.Close()` begins with `ln.s.mu.Lock()`. -/
def closeLoop (held : Bool) : ServerState → List (ListenKey × Listener) → Option ServerState
  | st, [] => some st
  | st, (_, ln) :: rest =>
    match muLock held with
    | none => none
    | some _ => closeLoop held (listenerCloseLocked st ln) rest

/-- Model of `Server.Close` (`tsnet.go` lines 102-116): cancel the shutdown
context (which stops the auth-URL polling loop), tear down the backend, link
monitor and local-API listener (collaborators, not part of this state), then
acquire `s.mu` and close every registered listener before clearing the
registry. -/
def serverClose (st : ServerState) : CloseOutcome :=
  let st1 := { st with shutdownDone := true }
  match muLock false with
  | none => CloseOutcome.deadlock
  | some held =>
    match closeLoop held st1 st1.registry with
    | none => CloseOutcome.deadlock
    | some st2 => CloseOutcome.completes { st2 with registry := [] } none

/-- The dispatch key used by `Server.forwardTCP`:
`listenKey\x7b"tcp", "", fmt.Sprint(port)\x7d`.  `fmt.Sprint` on a `uint16`
yields the decimal representation without leading zeros, i.e. `Nat.repr`. -/
def dispatchKey (port : Nat) : ListenKey := ⟨"tcp", "", Nat.repr port⟩

/-- The dispatcher's bounded delivery wait, `time.NewTimer(time.Second)`. -/
def forwardDispatchTimeoutSeconds : Nat := 1

/-- Fate of one inbound connection handled by `Server.forwardTCP`. -/
inductive ForwardResult where
  | droppedNoListener
  | delivered (ln : Listener)
  | droppedTimeout
deriving DecidableEq

/-- Model of `Server.forwardTCP` (`tsnet.go` lines 303-318): look up the
registry under `dispatchKey port`; with no registrant the connection is
closed at once; otherwise the send `ln.conn <- c` races a
`forwardDispatchTimeoutSeconds` timer — `acceptedWithinTimeout` says whether
some `Accept` call took the connection within that window; if not, the
connection is closed and nothing is queued. -/
def forwardTCP (st : ServerState) (port : Nat) (acceptedWithinTimeout : Bool) : ForwardResult :=
  match regLookup st.registry (dispatchKey port) with
  | none => ForwardResult.droppedNoListener
  | some ln =>
    if acceptedWithinTimeout then ForwardResult.delivered ln
    else ForwardResult.droppedTimeout

/-- Whether `close(ln.conn)` has happened for this listener. -/
def chanClosed (st : ServerState) (ln : Listener) : Bool := st.closedChans.contains ln.id

/-- Whether a `listener.Close` call on `ln` in state `st` executes
`close(ln.conn)` (the guard `v, ok := ...; ok && v == ln` holds). -/
def closesChan (st : ServerState) (ln : Listener) : Bool :=
  match regLookup st.registry ln.key with
  | some v => v = ln
  | none => false

/-- Result of one `listener.Accept` call. -/
inductive AcceptOutcome where
  | conn (c : Conn)
  | closedErr
  | blocks
deriving DecidableEq

/-- Model of `listener.Accept` (`tsnet.go` lines 409-415): a receive
`c, ok := <-ln.conn`.  On a closed channel the receive returns immediately
with `ok == false` and `Accept` returns the wrapped `net.ErrClosed`; on an
open channel it takes a pending delivery if the dispatcher has one, and
otherwise suspends. -/
def listenerAccept (st : ServerState) (ln : Listener) (pending : Option Conn) : AcceptOutcome :=
  if chanClosed st ln then AcceptOutcome.closedErr
  else
    match pending with
    | some c => AcceptOutcome.conn c
    | none => AcceptOutcome.blocks

/-- Backend states distinguished by `printAuthURLLoop`. -/
inductive BackendState where
  | needsLogin
  | other
deriving DecidableEq

/-- The sleep interval of `printAuthURLLoop`, `time.After(5 * time.Second)`. -/
def authURLPollIntervalSeconds : Nat := 5

/-- Whether `printAuthURLLoop` (`tsnet.go` lines 282-301) runs another
iteration: it returns as soon as the shutdown context is cancelled or the
backend state moves away from `NeedsLogin`. -/
def pollLoopContinues (shutdownDone : Bool) (bs : BackendState) : Bool :=
  if shutdownDone then false
  else bs == BackendState.needsLogin

/-- The operations of the model that can change a `ServerState`, used to
state invariant-preservation and permanence results. -/
inductive Op where
  | opStart (u : Option String)
  | opListen (network addr : String) (u : Option String)
  | opListenerClose (ln : Listener)
  | opServerClose

/-- Effect of an operation on the server state.  `opServerClose` leaves the
state it has reached when it deadlocks (the shutdown context is already
cancelled, nothing else has happened). -/
def applyOp (st : ServerState) : Op → ServerState
  | Op.opStart u => (startCall st u).1
  | Op.opListen network addr u => (serverListen st network addr u).1
  | Op.opListenerClose ln => (listenerClose st ln).1
  | Op.opServerClose =>
    match serverClose st with
    | CloseOutcome.completes st2 _ => st2
    | CloseOutcome.deadlock => { st with shutdownDone := true }

/-! ### Registry well-formedness

Invariants that hold of every reachable server state: a registered listener
is stored under its own key, its rendezvous channel is open, listener
identities are fresh and pairwise distinct, and the map has no duplicate
keys. -/

/-- Well-formedness of a server state. -/
def WF (st : ServerState) : Prop :=
  (∀ e ∈ st.registry, e.2.key = e.1 ∧ e.2.id ∉ st.closedChans ∧ e.2.id < st.nextId) ∧
  (∀ i ∈ st.closedChans, i < st.nextId) ∧
  (st.registry.map Prod.fst).Nodup ∧
  (st.registry.map (fun e => e.2.id)).Nodup

instance (st : ServerState) : Decidable (WF st) := by
  unfold WF
  infer_instance

/-- The empty server state (a fresh `Server` value) is well-formed. -/
theorem wf_empty : WF ⟨[], [], 0, false, none, 0, false⟩ := by decide

/-- A `Start` call only touches the latched initialization fields. -/
theorem startCall_registry (st : ServerState) (u : Option String) :
    (startCall st u).1.registry = st.registry ∧
    (startCall st u).1.closedChans = st.closedChans ∧
    (startCall st u).1.nextId = st.nextId := by
  unfold startCall
  by_cases h : st.initDone <;> simp [h]

/-- Well-formedness is preserved by `Start`. -/
theorem wf_startCall (st : ServerState) (u : Option String) (hwf : WF st) :
    WF (startCall st u).1 := by
  obtain ⟨h1, h2, h3⟩ := startCall_registry st u
  obtain ⟨w1, w2, w3, w4⟩ := hwf
  refine ⟨?_, ?_, ?_, ?_⟩
  · rw [h1, h2, h3]; exact w1
  · rw [h2, h3]; exact w2
  · rw [h1]; exact w3
  · rw [h1]; exact w4

/-- Well-formedness is preserved by `Listen`. -/
theorem wf_serverListen (st : ServerState) (network addr : String) (u : Option String)
    (hwf : WF st) : WF (serverListen st network addr u).1 := by
  unfold serverListen
  cases hsp : splitHostPort addr with
  | error e => exact hwf
  | ok hp =>
    obtain ⟨host, port⟩ := hp
    simp only
    cases hu : (startCall st u).2 with
    | some e => exact wf_startCall st u hwf
    | none =>
      simp only
      have hwf1 : WF (startCall st u).1 := wf_startCall st u hwf
      cases hl : regLookup (startCall st u).1.registry ⟨network, host, port⟩ with
      | some v => exact hwf1
      | none =>
        simp only
        obtain ⟨w1, w2, w3, w4⟩ := hwf1
        set st1 := (startCall st u).1 with hst1
        refine ⟨?_, ?_, ?_, ?_⟩
        · intro e he
          rcases List.mem_cons.1 he with he | he
          · subst he
            refine ⟨rfl, fun hc => ?_, Nat.lt_succ_self _⟩
            exact Nat.lt_irrefl _ (w2 _ hc)
          · obtain ⟨a, b, c⟩ := w1 e he
            exact ⟨a, b, Nat.lt_succ_of_lt c⟩
        · intro i hi
          exact Nat.lt_succ_of_lt (w2 i hi)
        · simp only [List.map_cons, List.nodup_cons]
          exact ⟨regLookup_none_not_key _ _ hl, w3⟩
        · simp only [List.map_cons, List.nodup_cons]
          refine ⟨fun hc => ?_, w4⟩
          rcases List.mem_map.1 hc with ⟨e, he, hee⟩
          have := (w1 e he).2.2
          simp only [hee] at this
          exact Nat.lt_irrefl _ this


/-- If a `listener.Close` call on `ln` passes the guard, `ln` is registered
under its own key. -/
theorem closesChan_lookup (st : ServerState) (ln : Listener)
    (h : closesChan st ln = true) : regLookup st.registry ln.key = some ln := by
  unfold closesChan at h
  cases hl : regLookup st.registry ln.key with
  | none => rw [hl] at h; simp at h
  | some v => rw [hl] at h; simp at h; rw [h]

/-- Effect of `listener.Close` when the guard holds: the key is deleted and
the rendezvous channel is closed. -/
theorem listenerCloseLocked_eq_close (st : ServerState) (ln : Listener)
    (h : closesChan st ln = true) :
    listenerCloseLocked st ln =
      { st with registry := regErase st.registry ln.key,
                closedChans := ln.id :: st.closedChans } := by
  have hl := closesChan_lookup st ln h
  unfold listenerCloseLocked
  rw [hl]
  simp

/-- Effect of `listener.Close` when the guard fails: nothing happens. -/
theorem listenerCloseLocked_eq_noop (st : ServerState) (ln : Listener)
    (h : closesChan st ln = false) : listenerCloseLocked st ln = st := by
  unfold closesChan at h
  unfold listenerCloseLocked
  cases hl : regLookup st.registry ln.key with
  | none => rfl
  | some v =>
    rw [hl] at h
    simp at h
    simp [h]

/-- Well-formedness is preserved by `listener.Close`. -/
theorem wf_listenerClose (st : ServerState) (ln : Listener) (hwf : WF st) :
    WF (listenerClose st ln).1 := by
  obtain ⟨w1, w2, w3, w4⟩ := hwf
  show WF (listenerCloseLocked st ln)
  by_cases hc : closesChan st ln = true
  · have hl := closesChan_lookup st ln hc
    have hmem : (ln.key, ln) ∈ st.registry := regLookup_mem _ _ _ hl
    rw [listenerCloseLocked_eq_close st ln hc]
    refine ⟨?_, ?_, ?_, ?_⟩
    · intro e he
      have he2 := mem_regErase _ _ _ he
      obtain ⟨a, b, c⟩ := w1 e he2.1
      refine ⟨a, ?_, c⟩
      intro hmemc
      rcases List.mem_cons.1 hmemc with hidv | hid
      · have hinj := List.inj_on_of_nodup_map w4 he2.1 hmem hidv
        exact he2.2 (by rw [hinj])
      · exact b hid
    · intro i hi
      rcases List.mem_cons.1 hi with hi | hi
      · rw [hi]
        exact (w1 _ hmem).2.2
      · exact w2 i hi
    · exact List.Nodup.sublist ((regErase_sublist _ _).map Prod.fst) w3
    · exact List.Nodup.sublist ((regErase_sublist _ _).map (fun e => e.2.id)) w4
  · rw [listenerCloseLocked_eq_noop st ln (by simpa using hc)]
    exact ⟨w1, w2, w3, w4⟩

/-- A `Listen` call never closes a rendezvous channel. -/
theorem serverListen_closedChans (st : ServerState) (network addr : String)
    (u : Option String) :
    (serverListen st network addr u).1.closedChans = st.closedChans := by
  have hcc := (startCall_registry st u).2.1
  unfold serverListen
  split
  · rfl
  · dsimp only
    split
    · exact hcc
    · split
      · exact hcc
      · exact hcc

/-- Behavior of `Server.Close` on an empty registry: it completes, the
shutdown context is cancelled, and it returns `nil`. -/
theorem serverClose_eq_of_nil (st : ServerState) (h : st.registry = []) :
    serverClose st =
      CloseOutcome.completes { st with shutdownDone := true, registry := [] } none := by
  unfold serverClose
  simp only [muLock]
  have hreg : ({ st with shutdownDone := true } : ServerState).registry = st.registry := rfl
  rw [hreg, h]
  simp [closeLoop]

/-- Behavior of `Server.Close` on a non-empty registry: the first iteration
of the close loop calls `ln.Close()`, which tries to lock `s.mu` while
`Server.Close` already holds it, and the call never returns. -/
theorem serverClose_eq_of_cons (st : ServerState) (e : ListenKey × Listener)
    (rest : List (ListenKey × Listener)) (h : st.registry = e :: rest) :
    serverClose st = CloseOutcome.deadlock := by
  obtain ⟨k0, ln0⟩ := e
  unfold serverClose
  simp only [muLock]
  have hreg : ({ st with shutdownDone := true } : ServerState).registry = st.registry := rfl
  rw [hreg, h]
  simp [closeLoop, muLock]

/-- Closed rendezvous channels stay closed across every operation: the set
`closedChans` only grows. -/
theorem closedChans_monotone (st : ServerState) (op : Op) (i : Nat)
    (h : i ∈ st.closedChans) : i ∈ (applyOp st op).closedChans := by
  cases op with
  | opStart u =>
    show i ∈ (startCall st u).1.closedChans
    rw [(startCall_registry st u).2.1]
    exact h
  | opListen network addr u =>
    show i ∈ (serverListen st network addr u).1.closedChans
    rw [serverListen_closedChans]
    exact h
  | opListenerClose ln =>
    show i ∈ (listenerCloseLocked st ln).closedChans
    by_cases hc : closesChan st ln = true
    · rw [listenerCloseLocked_eq_close st ln hc]
      exact List.mem_cons_of_mem _ h
    · rw [listenerCloseLocked_eq_noop st ln (by simpa using hc)]
      exact h
  | opServerClose =>
    show i ∈ (match serverClose st with
      | CloseOutcome.completes st2 _ => st2
      | CloseOutcome.deadlock => { st with shutdownDone := true }).closedChans
    cases hreg : st.registry with
    | nil =>
      rw [serverClose_eq_of_nil st hreg]
      exact h
    | cons e rest =>
      rw [serverClose_eq_of_cons st e rest hreg]
      exact h

/-! ### Claim theorems -/

/-- C1: the claim says a non-ephemeral server with a supplied in-memory store
must fail the store-policy check with a configuration error.  The code does
the opposite: the guard `if _, ok := s.Store.(*mem.Store); !ok` fires when
the supplied store is NOT the in-memory `*mem.Store`, so a non-ephemeral
server with an in-memory store sails through the check, while a
non-ephemeral server with a persistent store is rejected — with an error
message that contradicts the branch that returns it. -/
theorem storePolicyCheck_inverted :
    storePolicyCheck (some StoreKind.memStore) false = none ∧
    storePolicyCheck (some StoreKind.otherStore) false =
      some "in-memory store is only supported for Ephemeral nodes" ∧
    storePolicyCheck (some StoreKind.memStore) true = none ∧
    storePolicyCheck none false = none := by
  decide

/-- Listener and state used to exhibit the `Server.Close` deadlock. -/
def lnC2 : Listener := ⟨0, ⟨"tcp", "", "8080"⟩, ":8080"⟩

/-- A started server with one registered listener. -/
def stC2 : ServerState := ⟨[(⟨"tcp", "", "8080"⟩, lnC2)], [], 1, true, none, 1, false⟩

/-- A started server with no registered listener. -/
def stC2e : ServerState := ⟨[], [], 0, true, none, 1, false⟩

/-- C2: the claim says `Server.Close` closes every registered listener and
empties the registry, including for a non-empty registry.  In the code,
`Server.Close` holds `s.mu` while it calls `ln.Close()`, whose first
statement locks `ln.s.mu` — the same non-reentrant mutex — so `Close`
deadlocks as soon as one listener is registered.  The shutdown context is
cancelled before the lock is taken, so the auth-URL polling loop does stop;
with an empty registry `Close` completes and leaves the registry empty. -/
theorem serverClose_deadlocks_nonempty :
    serverClose stC2 = CloseOutcome.deadlock ∧
    pollLoopContinues true BackendState.needsLogin = false ∧
    serverClose stC2e = CloseOutcome.completes ⟨[], [], 0, true, none, 1, true⟩ none :=
  ⟨rfl, rfl, rfl⟩

/-- C8: resolution of the automatic state directory.  With only the legacy
`tslib-` directory present, it is renamed to the `tsnet-` name, and running
the resolution again on the resulting filesystem performs no further rename
(the rename happens exactly once); with both directories present the legacy
one is left untouched and the new one is used; with neither present a fresh
`tsnet-` directory is created by `os.MkdirAll`. -/
theorem stateDir_migration (confDir prog : String) :
    (getTSNetDir ⟨some FileKind.dir, none⟩ confDir prog =
        Except.ok ⟨⟨none, some FileKind.dir⟩, tsnetDirName confDir prog, true⟩ ∧
      getTSNetDir ⟨none, some FileKind.dir⟩ confDir prog =
        Except.ok ⟨⟨none, some FileKind.dir⟩, tsnetDirName confDir prog, false⟩ ∧
      resolveAutoStateDir ⟨some FileKind.dir, none⟩ confDir prog =
        Except.ok (⟨none, some FileKind.dir⟩, tsnetDirName confDir prog, true)) ∧
    getTSNetDir ⟨some FileKind.dir, some FileKind.dir⟩ confDir prog =
      Except.ok ⟨⟨some FileKind.dir, some FileKind.dir⟩, tsnetDirName confDir prog, false⟩ ∧
    resolveAutoStateDir ⟨none, none⟩ confDir prog =
      Except.ok (⟨none, some FileKind.dir⟩, tsnetDirName confDir prog, false) :=
  ⟨⟨rfl, rfl, rfl⟩, rfl, rfl⟩

/-- State and per-call results of `n ≥ 1` successive `Start` calls on a
server that has not initialized yet: the state latches the wrapped result of
the single `doInit` run, and every call returns that same value. -/
theorem startResults_spec (st : ServerState) (u : Option String) (n : Nat)
    (h : st.initDone = false) (hn : 1 ≤ n) :
    (startResults st u n).1 =
      { st with initDone := true, initErr := u.map (fun m => "tsnet: " ++ m),
                initCount := st.initCount + 1 } ∧
    (startResults st u n).2 = List.replicate n (u.map (fun m => "tsnet: " ++ m)) := by
  induction n with
  | zero => exact absurd hn (by decide)
  | succ n ih =>
    rcases Nat.eq_zero_or_pos n with h0 | hpos
    · subst h0
      simp [startResults, startCall, h]
    · have prev := ih hpos
      unfold startResults
      dsimp only
      rw [prev.1, prev.2]
      simp [startCall, List.replicate_succ']

/-- C3: `Start` runs the initialization exactly once.  For every `n ≥ 1`,
after `n` `Start` calls on a fresh server `doInit` has run once
(`initCount` went from `0` to `1`) and every one of the `n` calls returned
the same latched value: the single context-wrapped error of the underlying
`start()` run, or the same success. -/
theorem start_exactly_once (st : ServerState) (u : Option String) (n : Nat)
    (h : st.initDone = false) (h0 : st.initCount = 0) (hn : 1 ≤ n) :
    (startResults st u n).1.initCount = 1 ∧
    (startResults st u n).2 = List.replicate n (u.map (fun m => "tsnet: " ++ m)) := by
  have hs := startResults_spec st u n h hn
  refine ⟨?_, hs.2⟩
  rw [hs.1]
  simp [h0]

/-- Witness for C3 at a fresh server, a failing environment and three calls. -/
theorem start_exactly_once_witness :
    (startResults ⟨[], [], 0, false, none, 0, false⟩ (some "boom") 3).1.initCount = 1 ∧
    (startResults ⟨[], [], 0, false, none, 0, false⟩ (some "boom") 3).2 =
      List.replicate 3 (Option.map (fun m => "tsnet: " ++ m) (some "boom")) :=
  start_exactly_once ⟨[], [], 0, false, none, 0, false⟩ (some "boom") 3 rfl rfl (by decide)

/-- C5: dispatch policy of `forwardTCP`.  A connection arriving for a port
with no listener registered under the key `dispatchKey port` is closed
immediately and never delivered to any listener; a connection arriving for a
registered listener is delivered only if an `Accept` claims it within the
1-second timer window, and is otherwise closed rather than queued. -/
theorem forwardTCP_policy (st : ServerState) (port : Nat) (a : Bool) :
    (regLookup st.registry (dispatchKey port) = none →
      forwardTCP st port a = ForwardResult.droppedNoListener ∧
      ∀ ln, forwardTCP st port a ≠ ForwardResult.delivered ln) ∧
    (∀ ln, regLookup st.registry (dispatchKey port) = some ln →
      forwardTCP st port true = ForwardResult.delivered ln ∧
      forwardTCP st port false = ForwardResult.droppedTimeout) := by
  constructor
  · intro hl
    unfold forwardTCP
    rw [hl]
    exact ⟨rfl, fun ln => by simp⟩
  · intro ln hl
    unfold forwardTCP
    rw [hl]
    exact ⟨rfl, rfl⟩

/-- Witness for C5: an empty registry hard-drops port 80, and a server with
a listener registered at port 8080 delivers within the window and drops on
timeout. -/
theorem forwardTCP_policy_witness :
    (forwardTCP ⟨[], [], 0, true, none, 1, false⟩ 80 true =
        ForwardResult.droppedNoListener ∧
      ∀ ln, forwardTCP ⟨[], [], 0, true, none, 1, false⟩ 80 true ≠
        ForwardResult.delivered ln) ∧
    (forwardTCP ⟨[(⟨"tcp", "", "8080"⟩, ⟨0, ⟨"tcp", "", "8080"⟩, ":8080"⟩)], [], 1,
        true, none, 1, false⟩ 8080 true =
        ForwardResult.delivered ⟨0, ⟨"tcp", "", "8080"⟩, ":8080"⟩ ∧
      forwardTCP ⟨[(⟨"tcp", "", "8080"⟩, ⟨0, ⟨"tcp", "", "8080"⟩, ":8080"⟩)], [], 1,
        true, none, 1, false⟩ 8080 false = ForwardResult.droppedTimeout) :=
  ⟨(forwardTCP_policy ⟨[], [], 0, true, none, 1, false⟩ 80 true).1 (by decide),
   (forwardTCP_policy ⟨[(⟨"tcp", "", "8080"⟩, ⟨0, ⟨"tcp", "", "8080"⟩, ":8080"⟩)], [], 1,
      true, none, 1, false⟩ 8080 true).2 ⟨0, ⟨"tcp", "", "8080"⟩, ":8080"⟩ (by decide)⟩

/-- C7: `listener.Accept` blocks until the dispatcher delivers a connection
or the listener is closed.  On an open channel it returns a delivered
connection and otherwise suspends; once the channel is closed, `Accept`
returns the closed-listener error without blocking, and the channel stays
closed across every further operation, so repeated `Accept` calls keep
failing permanently. -/
theorem accept_spec (st : ServerState) (ln : Listener) (pending : Option Conn) :
    (chanClosed st ln = true →
      listenerAccept st ln pending = AcceptOutcome.closedErr ∧
      ∀ op, chanClosed (applyOp st op) ln = true) ∧
    (chanClosed st ln = false →
      (∀ c, pending = some c → listenerAccept st ln pending = AcceptOutcome.conn c) ∧
      (pending = none → listenerAccept st ln pending = AcceptOutcome.blocks)) := by
  constructor
  · intro hc
    constructor
    · unfold listenerAccept
      rw [hc]
      rfl
    · intro op
      have hmem : ln.id ∈ st.closedChans := by
        simpa [chanClosed, List.contains_iff_exists_mem_beq] using hc
      have hmem2 := closedChans_monotone st op ln.id hmem
      simpa [chanClosed, List.contains_iff_exists_mem_beq] using hmem2
  · intro hc
    constructor
    · intro c hp
      unfold listenerAccept
      rw [hc, hp]
      rfl
    · intro hp
      unfold listenerAccept
      rw [hc, hp]
      rfl

/-- Witness for C7: a closed listener fails permanently (also across a
server `Close`), an open listener takes a delivered connection and otherwise
blocks. -/
theorem accept_spec_witness :
    (listenerAccept ⟨[], [5], 6, true, none, 1, false⟩ ⟨5, ⟨"tcp", "", "80"⟩, ":80"⟩
        none = AcceptOutcome.closedErr ∧
      chanClosed (applyOp ⟨[], [5], 6, true, none, 1, false⟩ Op.opServerClose)
        ⟨5, ⟨"tcp", "", "80"⟩, ":80"⟩ = true) ∧
    listenerAccept ⟨[], [], 6, true, none, 1, false⟩ ⟨5, ⟨"tcp", "", "80"⟩, ":80"⟩
      (some ⟨7⟩) = AcceptOutcome.conn ⟨7⟩ ∧
    listenerAccept ⟨[], [], 6, true, none, 1, false⟩ ⟨5, ⟨"tcp", "", "80"⟩, ":80"⟩
      none = AcceptOutcome.blocks :=
  ⟨⟨((accept_spec ⟨[], [5], 6, true, none, 1, false⟩ ⟨5, ⟨"tcp", "", "80"⟩, ":80"⟩
        none).1 (by decide)).1,
    ((accept_spec ⟨[], [5], 6, true, none, 1, false⟩ ⟨5, ⟨"tcp", "", "80"⟩, ":80"⟩
        none).1 (by decide)).2 Op.opServerClose⟩,
   ((accept_spec ⟨[], [], 6, true, none, 1, false⟩ ⟨5, ⟨"tcp", "", "80"⟩, ":80"⟩
      (some ⟨7⟩)).2 (by decide)).1 ⟨7⟩ rfl,
   ((accept_spec ⟨[], [], 6, true, none, 1, false⟩ ⟨5, ⟨"tcp", "", "80"⟩, ":80"⟩
      none).2 (by decide)).2 rfl⟩

/-- C9: a connection dispatched for port `p` can only go to the listener
whose registered key is exactly `dispatchKey p` — network `"tcp"`, empty
host, and the canonical decimal string of `p`.  A listener whose key
differs in any component never has a connection delivered to it. -/
theorem dispatch_key_exact (st : ServerState) (port : Nat) (a : Bool) (ln : Listener)
    (hwf : WF st) :
    (forwardTCP st port a = ForwardResult.delivered ln → ln.key = dispatchKey port) ∧
    (ln.key ≠ dispatchKey port → forwardTCP st port a ≠ ForwardResult.delivered ln) := by
  have hmain : forwardTCP st port a = ForwardResult.delivered ln →
      ln.key = dispatchKey port := by
    intro hf
    unfold forwardTCP at hf
    cases hl : regLookup st.registry (dispatchKey port) with
    | none => rw [hl] at hf; exact absurd hf (by simp)
    | some v =>
      rw [hl] at hf
      cases a with
      | false => exact absurd hf (by simp)
      | true =>
        simp at hf
        have hmem := regLookup_mem _ _ _ hl
        have := (hwf.1 _ hmem).1
        rw [← hf]
        exact this
  exact ⟨hmain, fun hne hf => hne (hmain hf)⟩

/-- Witness for C9: a listener registered under the non-canonical port
string "0080" is never the delivery target of a connection dispatched for
port 80. -/
theorem dispatch_key_exact_witness :
    forwardTCP ⟨[(⟨"tcp", "", "0080"⟩, ⟨0, ⟨"tcp", "", "0080"⟩, ":0080"⟩)], [], 1,
        true, none, 1, false⟩ 80 true ≠
      ForwardResult.delivered ⟨0, ⟨"tcp", "", "0080"⟩, ":0080"⟩ :=
  (dispatch_key_exact ⟨[(⟨"tcp", "", "0080"⟩, ⟨0, ⟨"tcp", "", "0080"⟩, ":0080"⟩)], [], 1,
      true, none, 1, false⟩ 80 true ⟨0, ⟨"tcp", "", "0080"⟩, ":0080"⟩ (by decide)).2
    (by decide)

/-- C10: the rendezvous channel of a listener is closed at most once.
`listener.Close` always returns `nil`; it executes `close(ln.conn)` only
when the listener is still the current registrant, in which case the channel
is still open (so the close never panics); immediately after a `Close` the
listener is no longer the current registrant, so a repeated `Close` — or a
`Close` after the listener was removed — is a no-op. -/
theorem chan_close_at_most_once (st : ServerState) (ln : Listener) (hwf : WF st) :
    (listenerClose st ln).2 = none ∧
    (closesChan st ln = true → chanClosed st ln = false) ∧
    closesChan (listenerClose st ln).1 ln = false ∧
    (closesChan st ln = false → (listenerClose st ln).1 = st) := by
  refine ⟨rfl, ?_, ?_, ?_⟩
  · intro hc
    have hl := closesChan_lookup st ln hc
    have hmem := regLookup_mem _ _ _ hl
    have hnot := (hwf.1 _ hmem).2.1
    simpa [chanClosed, List.contains_iff_exists_mem_beq] using hnot
  · by_cases hc : closesChan st ln = true
    · show closesChan (listenerCloseLocked st ln) ln = false
      rw [listenerCloseLocked_eq_close st ln hc]
      simp [closesChan, regLookup_erase_self]
    · show closesChan (listenerCloseLocked st ln) ln = false
      rw [listenerCloseLocked_eq_noop st ln (by simpa using hc)]
      simpa using hc
  · intro hc
    show listenerCloseLocked st ln = st
    exact listenerCloseLocked_eq_noop st ln hc

/-- Witness for C10 on a registered listener with an open channel. -/
theorem chan_close_at_most_once_witness :
    (listenerClose ⟨[(⟨"tcp", "", "80"⟩, ⟨0, ⟨"tcp", "", "80"⟩, ":80"⟩)], [], 1,
        true, none, 1, false⟩ ⟨0, ⟨"tcp", "", "80"⟩, ":80"⟩).2 = none ∧
    chanClosed ⟨[(⟨"tcp", "", "80"⟩, ⟨0, ⟨"tcp", "", "80"⟩, ":80"⟩)], [], 1,
        true, none, 1, false⟩ ⟨0, ⟨"tcp", "", "80"⟩, ":80"⟩ = false ∧
    closesChan (listenerClose ⟨[(⟨"tcp", "", "80"⟩, ⟨0, ⟨"tcp", "", "80"⟩, ":80"⟩)], [],
        1, true, none, 1, false⟩ ⟨0, ⟨"tcp", "", "80"⟩, ":80"⟩).1
      ⟨0, ⟨"tcp", "", "80"⟩, ":80"⟩ = false :=
  ⟨(chan_close_at_most_once ⟨[(⟨"tcp", "", "80"⟩, ⟨0, ⟨"tcp", "", "80"⟩, ":80"⟩)], [], 1,
      true, none, 1, false⟩ ⟨0, ⟨"tcp", "", "80"⟩, ":80"⟩ (by decide)).1,
   (chan_close_at_most_once ⟨[(⟨"tcp", "", "80"⟩, ⟨0, ⟨"tcp", "", "80"⟩, ":80"⟩)], [], 1,
      true, none, 1, false⟩ ⟨0, ⟨"tcp", "", "80"⟩, ":80"⟩ (by decide)).2.1 (by decide),
   (chan_close_at_most_once ⟨[(⟨"tcp", "", "80"⟩, ⟨0, ⟨"tcp", "", "80"⟩, ":80"⟩)], [], 1,
      true, none, 1, false⟩ ⟨0, ⟨"tcp", "", "80"⟩, ":80"⟩ (by decide)).2.2.1⟩

/-- C4: behavior of `Server.Listen`.  A malformed address fails with the
wrapped parse error and leaves the state untouched — in particular `Start`
is not triggered; otherwise `Start` runs, and a `Start` failure is returned
as the startup error; otherwise an already-registered key fails with the
duplicate-listener error; otherwise a fresh listener is created, registered
under the resolved key, and returned. -/
theorem listen_cases (st : ServerState) (network addr : String) (u : Option String) :
    (∀ e, splitHostPort addr = Except.error e →
      serverListen st network addr u =
        (st, Except.error (ListenError.addressParse
          ("tsnet: " ++ addrErrorString addr e)))) ∧
    (∀ host port, splitHostPort addr = Except.ok (host, port) →
      ∀ e, (startCall st u).2 = some e →
        serverListen st network addr u =
          ((startCall st u).1, Except.error (ListenError.startup e))) ∧
    (∀ host port, splitHostPort addr = Except.ok (host, port) →
      (startCall st u).2 = none →
      ∀ v, regLookup (startCall st u).1.registry ⟨network, host, port⟩ = some v →
        serverListen st network addr u =
          ((startCall st u).1, Except.error (ListenError.duplicateListener
            ("tsnet: listener already open for " ++ network ++ ", " ++ addr)))) ∧
    (∀ host port, splitHostPort addr = Except.ok (host, port) →
      (startCall st u).2 = none →
      regLookup (startCall st u).1.registry ⟨network, host, port⟩ = none →
      (serverListen st network addr u).2 =
        Except.ok ⟨(startCall st u).1.nextId, ⟨network, host, port⟩, addr⟩ ∧
      regLookup (serverListen st network addr u).1.registry ⟨network, host, port⟩ =
        some ⟨(startCall st u).1.nextId, ⟨network, host, port⟩, addr⟩) := by
  refine ⟨?_, ?_, ?_, ?_⟩
  · intro e hsp
    unfold serverListen
    rw [hsp]
  · intro host port hsp e he
    unfold serverListen
    rw [hsp]
    dsimp only
    rw [he]
  · intro host port hsp hu v hl
    unfold serverListen
    rw [hsp]
    dsimp only
    rw [hu]
    dsimp only
    rw [hl]
  · intro host port hsp hu hl
    unfold serverListen
    rw [hsp]
    dsimp only
    rw [hu]
    dsimp only
    rw [hl]
    exact ⟨rfl, by simp [regLookup]⟩

/-- Witness for C4, instantiating each branch: a malformed address on a
started server, a failing `Start` on a fresh server, a duplicate key, and a
successful registration. -/
theorem listen_cases_witness :
    serverListen ⟨[], [], 0, true, none, 1, false⟩ "tcp" "noport" none =
      (⟨[], [], 0, true, none, 1, false⟩, Except.error (ListenError.addressParse
        ("tsnet: " ++ addrErrorString "noport" missingPortMsg))) ∧
    serverListen ⟨[], [], 0, false, none, 0, false⟩ "tcp" ":80" (some "boom") =
      ((startCall ⟨[], [], 0, false, none, 0, false⟩ (some "boom")).1,
        Except.error (ListenError.startup "tsnet: boom")) ∧
    serverListen ⟨[(⟨"tcp", "", "80"⟩, ⟨0, ⟨"tcp", "", "80"⟩, ":80"⟩)], [], 1,
        true, none, 1, false⟩ "tcp" ":80" none =
      ((startCall ⟨[(⟨"tcp", "", "80"⟩, ⟨0, ⟨"tcp", "", "80"⟩, ":80"⟩)], [], 1,
          true, none, 1, false⟩ none).1,
        Except.error (ListenError.duplicateListener
          ("tsnet: listener already open for " ++ "tcp" ++ ", " ++ ":80"))) ∧
    (serverListen ⟨[], [], 0, true, none, 1, false⟩ "tcp" ":80" none).2 =
      Except.ok ⟨0, ⟨"tcp", "", "80"⟩, ":80"⟩ ∧
    regLookup (serverListen ⟨[], [], 0, true, none, 1, false⟩ "tcp" ":80" none).1.registry
      ⟨"tcp", "", "80"⟩ = some ⟨0, ⟨"tcp", "", "80"⟩, ":80"⟩ :=
  ⟨(listen_cases ⟨[], [], 0, true, none, 1, false⟩ "tcp" "noport" none).1
      missingPortMsg (by decide),
   (listen_cases ⟨[], [], 0, false, none, 0, false⟩ "tcp" ":80" (some "boom")).2.1
      "" "80" (by decide) "tsnet: boom" (by decide),
   (listen_cases ⟨[(⟨"tcp", "", "80"⟩, ⟨0, ⟨"tcp", "", "80"⟩, ":80"⟩)], [], 1,
      true, none, 1, false⟩ "tcp" ":80" none).2.2.1 "" "80" (by decide) (by decide)
      ⟨0, ⟨"tcp", "", "80"⟩, ":80"⟩ (by decide),
   (listen_cases ⟨[], [], 0, true, none, 1, false⟩ "tcp" ":80" none).2.2.2
      "" "80" (by decide) (by decide) (by decide)⟩

/-- The state component of `listener.Close`. -/
theorem listenerClose_fst (st : ServerState) (ln : Listener) :
    (listenerClose st ln).1 = listenerCloseLocked st ln := rfl

/-- C6: lifecycle of `listener.Close`.  When the listener is no longer the
one stored under its key the call is a no-op; otherwise it removes exactly
its own key from the registry (every other key is untouched), all pending
and future `Accept` calls on it return the closed-listener error, and the
key is free again: on a started server a new `Listen` whose address resolves
to the same (network, host, port) succeeds. -/
theorem listener_close_lifecycle (st : ServerState) (ln : Listener) :
    (regLookup st.registry ln.key ≠ some ln → (listenerClose st ln).1 = st) ∧
    (regLookup st.registry ln.key = some ln →
      regLookup (listenerClose st ln).1.registry ln.key = none ∧
      (∀ k, k ≠ ln.key →
        regLookup (listenerClose st ln).1.registry k = regLookup st.registry k) ∧
      (∀ pending, listenerAccept (listenerClose st ln).1 ln pending =
        AcceptOutcome.closedErr) ∧
      (st.initDone = true → st.initErr = none →
        ∀ network addr host port u, splitHostPort addr = Except.ok (host, port) →
          (⟨network, host, port⟩ : ListenKey) = ln.key →
          (serverListen (listenerClose st ln).1 network addr u).2 =
            Except.ok ⟨st.nextId, ⟨network, host, port⟩, addr⟩)) := by
  constructor
  · intro hne
    have hc : closesChan st ln = false := by
      unfold closesChan
      cases hl : regLookup st.registry ln.key with
      | none => rfl
      | some v =>
        have hv : v ≠ ln := fun hv => hne (by rw [hl, hv])
        simp [hv]
    rw [listenerClose_fst]
    exact listenerCloseLocked_eq_noop st ln hc
  · intro hl
    have hc : closesChan st ln = true := by
      unfold closesChan
      rw [hl]
      simp
    have heq := listenerCloseLocked_eq_close st ln hc
    refine ⟨?_, ?_, ?_, ?_⟩
    · rw [listenerClose_fst, heq]
      exact regLookup_erase_self _ _
    · intro k hk
      rw [listenerClose_fst, heq]
      exact regLookup_erase_ne _ _ _ hk
    · intro pending
      unfold listenerAccept
      have hcl : chanClosed (listenerClose st ln).1 ln = true := by
        rw [listenerClose_fst, heq]
        simp [chanClosed]
      rw [hcl]
      rfl
    · intro hid hie network addr host port u hsp hkey
      unfold serverListen
      rw [hsp]
      dsimp only
      rw [listenerClose_fst, heq]
      unfold startCall
      dsimp only
      rw [hid]
      simp only [if_true]
      rw [hie]
      dsimp only
      rw [hkey]
      simp [regLookup_erase_self]

/-- Key used in the C6 witness. -/
def k80 : ListenKey := ⟨"tcp", "", "80"⟩

/-- A second key used in the C6 witness to show other keys are untouched. -/
def k81 : ListenKey := ⟨"tcp", "", "81"⟩

/-- Listener used in the C6 witness. -/
def ln80 : Listener := ⟨0, k80, ":80"⟩

/-- Started server with `ln80` registered, used in the C6 witness. -/
def stLC : ServerState := ⟨[(k80, ln80)], [], 1, true, none, 1, false⟩

/-- Witness for C6: closing an unregistered listener is a no-op; closing the
current registrant frees exactly its key, makes `Accept` fail, and lets a
new `Listen` on the same key succeed. -/
theorem listener_close_lifecycle_witness :
    (listenerClose ⟨[], [], 0, true, none, 1, false⟩ ln80).1 =
      ⟨[], [], 0, true, none, 1, false⟩ ∧
    regLookup (listenerClose stLC ln80).1.registry ln80.key = none ∧
    regLookup (listenerClose stLC ln80).1.registry k81 = regLookup stLC.registry k81 ∧
    listenerAccept (listenerClose stLC ln80).1 ln80 none = AcceptOutcome.closedErr ∧
    (serverListen (listenerClose stLC ln80).1 "tcp" ":80" none).2 =
      Except.ok ⟨stLC.nextId, ⟨"tcp", "", "80"⟩, ":80"⟩ :=
  ⟨(listener_close_lifecycle ⟨[], [], 0, true, none, 1, false⟩ ln80).1 (by decide),
   ((listener_close_lifecycle stLC ln80).2 (by decide)).1,
   ((listener_close_lifecycle stLC ln80).2 (by decide)).2.1 k81 (by decide),
   ((listener_close_lifecycle stLC ln80).2 (by decide)).2.2.1 none,
   ((listener_close_lifecycle stLC ln80).2 (by decide)).2.2.2 (by decide) (by decide)
     "tcp" ":80" "" "80" none (by decide) (by decide)⟩

end Tsnet
